import Mathlib

/-!
# Verification of the MooCoin operator console (`ctl.py`)

Shallow embedding of the account keystore and transaction-submission
workflow of `02-moocoin/ctl.py`, together with theorems settling the
specification claims about it.

Modelling conventions:
* The remote ledger node and the faucet service are opaque collaborators
  (per the spec's scope).  They are modelled by a `World` of oracles: each
  oracle returns either a value or an error message (a raised exception).
* Side effects (transaction submission, confirmation waits, faucet calls,
  directory creation, key-file writes) are recorded as an explicit event
  trace in the order the source performs them.
* The keystore directory `<aptos_dir>/keys/<profile>/` holds one file per
  created account, named `<name>.json`.  Since `name ↦ name ++ ".json"` is
  injective and every file this program writes has that shape, the
  directory is modelled as an association list keyed by the account name;
  full file paths appear in the event trace.  (`Path.stem` inverts the
  `.json` suffix for such filenames.)
* `Account.generate()` draws fresh randomness; the model threads a counter
  `nextKey` as the randomness source, so generation is the observable
  state change `nextKey := nextKey + 1`.
* Paths are lists of components.
-/

namespace Moocoin

/-- A cryptographic identity: the private key material.  Key generation and
address derivation are external (SDK) crypto; the model keeps the key as an
opaque string and derives the address injectively from it. -/
structure Account where
  key : String
deriving DecidableEq, Repr

/-- `acc.address()` — address derived from the key (injective). -/
def Account.address (a : Account) : String := "0x" ++ a.key

/-- `Account.generate()` with randomness source `n`. -/
def Account.generate (n : Nat) : Account := ⟨"k" ++ toString n⟩

/-- A JSON value appearing in a transaction payload's argument list
(`ctl.py` uses raw ints and stringified addresses). -/
inductive JsonVal where
  | num : Int → JsonVal
  | str : String → JsonVal
deriving DecidableEq, Repr

/-- An `entry_function_payload` dict as built in `ctl.py`. -/
structure Payload where
  function : String
  arguments : List JsonVal
  type_arguments : List String
deriving DecidableEq, Repr

/-- Observable side effects, in program order. -/
inductive Event where
  /-- `client.submit_transaction(root, payload)` -/
  | submitTx : Payload → Event
  /-- `client.wait_for_transaction(tx_hash)` — blocking confirmation wait -/
  | waitForTx : Nat → Event
  /-- `faucet.fund_account(str(address), amount)` -/
  | faucetFund : String → Int → Event
  /-- `keys_dir.mkdir(parents=True, exist_ok=True)` -/
  | mkdirKeys : List String → Event
  /-- `acc.store(key_path)` — persist the key file -/
  | writeKeyFile : List String → Account → Event
  /-- BCS path: build + `client.submit_bcs_transaction` for
  `ModuleId(moduleAddr, moduleName)::fn` signed by `signer` -/
  | submitBcsTx : (signer : String) → (moduleAddr : String) →
      (moduleName : String) → (fn : String) → Event
deriving DecidableEq, Repr

def Event.isWaitForTx : Event → Bool
  | .waitForTx _ => true
  | _ => false

def Event.isFaucetFund : Event → Bool
  | .faucetFund _ _ => true
  | _ => false

def Event.isWriteKeyFile : Event → Bool
  | .writeKeyFile _ _ => true
  | _ => false

/-- The exceptions the embedded code can raise. -/
inductive Err where
  /-- a failing `assert` (e.g. `assert name != "root"`) -/
  | assertFailed : String → Err
  | accountAlreadyExists : Err
  /-- `typer.BadParameter` for an unresolved account name -/
  | accountNotFound : String → Err
  | sdkDirNotFound : Err
  | profileNotFound : Err
  /-- `cfg[k]` on a missing key -/
  | keyError : String → Err
  /-- `.rstrip` (or key decoding) on a non-string config value -/
  | attributeError : Err
  /-- `open()` on a missing `config.yaml` -/
  | fileNotFoundError : Err
  /-- `yaml.safe_load` on an unparseable document -/
  | yamlError : Err
  /-- an exception propagated out of a ledger/faucet call -/
  | external : String → Err
deriving DecidableEq, Repr

/-- The opaque collaborators (ledger node and faucet), as oracles.
`.error msg` models the call raising. -/
structure World where
  submit : Payload → Except String Nat
  wait : Nat → Except String Unit
  fund : String → Int → Except String Unit
  submitBcs : (signer : String) → (moduleAddr : String) →
      (moduleName : String) → (fn : String) → Except String Nat

/-- The mutable state visible to `AppObject`: the root account, the
`.aptos` directory path, the profile name, the keystore directory contents
(account name ↦ stored account, in file-creation order) and the randomness
counter for `Account.generate`. -/
structure AppState where
  root : Account
  aptosDir : List String
  profileName : String
  keys : List (String × Account)
  nextKey : Nat
deriving DecidableEq, Repr

/-- `self._keys_dir` = `aptos_dir / "keys" / profile_name`. -/
def keysDirPath (st : AppState) : List String :=
  st.aptosDir ++ ["keys", st.profileName]

/-- The key file's name for an account name. -/
def keyFileName (name : String) : String := name ++ ".json"

/-- The payload built for on-chain account creation. -/
def createAccPayload (acc : Account) : Payload :=
  { function := "0x01::aptos_account::create_account"
    arguments := [.str acc.address]
    type_arguments := [] }

/-- Result of `AppObject.create_account`: the returned account (or raised
exception), the event trace, and the state afterwards. -/
structure CreateResult where
  result : Except Err Account
  events : List Event
  state : AppState
deriving Repr

/-- `AppObject.create_account(name, fund_amount)` (ctl.py lines 157-189):
assert the name is not reserved, fail fast if the key file exists,
generate a key-pair, submit + await the on-chain creation, fund through
the faucet when `fund_amount > 0`, and only then write the key file. -/
def createAccount (w : World) (st : AppState) (name : String)
    (fund_amount : Int) : CreateResult :=
  if name = "root" then
    ⟨.error (.assertFailed "name 'root' is reserved"), [], st⟩
  else if (st.keys.lookup name).isSome then
    -- `key_path.exists()`: a file `<name>.json` is in the keystore directory
    ⟨.error .accountAlreadyExists, [], st⟩
  else
    let acc := Account.generate st.nextKey
    let st1 : AppState := { st with nextKey := st.nextKey + 1 }
    let payload := createAccPayload acc
    match w.submit payload with
    | .error e => ⟨.error (.external e), [.submitTx payload], st1⟩
    | .ok txh =>
      match w.wait txh with
      | .error e =>
          ⟨.error (.external e), [.submitTx payload, .waitForTx txh], st1⟩
      | .ok _ =>
        let pre := [Event.submitTx payload, Event.waitForTx txh]
        let keyPath := keysDirPath st1 ++ [keyFileName name]
        let finish : List Event → CreateResult := fun evs =>
          ⟨.ok acc,
           evs ++ [.mkdirKeys (keysDirPath st1), .writeKeyFile keyPath acc],
           { st1 with keys := st1.keys ++ [(name, acc)] }⟩
        if fund_amount > 0 then
          match w.fund acc.address fund_amount with
          | .error e =>
              ⟨.error (.external e),
               pre ++ [.faucetFund acc.address fund_amount], st1⟩
          | .ok _ => finish (pre ++ [.faucetFund acc.address fund_amount])
        else
          finish pre

/-- `AppObject.get_account(name)` (ctl.py lines 191-202): the in-memory
root for `"root"`, otherwise the persisted key file if it exists, else
`None`.  (`key_path.exists()` + `Account.load(key_path)` become one lookup
in the name-keyed directory model.) -/
def getAccount (st : AppState) (name : String) : Option Account :=
  if name = "root" then some st.root
  else st.keys.lookup name

/-- Python dict assignment `result[k] = v`: overwrite in place if the key
is present, else append (insertion order is preserved). -/
def dictInsert (d : List (String × Account)) (k : String) (v : Account) :
    List (String × Account) :=
  if d.any (fun kv => kv.1 = k) then
    d.map (fun kv => if kv.1 = k then (k, v) else kv)
  else d ++ [(k, v)]

/-- `AppObject.load_accounts()` (ctl.py lines 204-216): start from
`{"root": self.root}` and add every `*.json` key file found in the
keystore directory under its stem.  In the model the directory holds
exactly the files this program writes (`<name>.json`), enumerated in
creation order, and the stem recovers the name; an absent directory is
the empty list, so the `exists()` guard is the vacuous fold. -/
def loadAccounts (st : AppState) : List (String × Account) :=
  st.keys.foldl (fun res kv => dictInsert res kv.1 kv.2)
    [("root", st.root)]

/-- The mint payload: `f"{root.address()}::MooCoin::mint"` with the raw
amount and the stringified recipient address. -/
def mintPayload (st : AppState) (amount : Int) (toAcc : Account) : Payload :=
  { function := st.root.address ++ "::MooCoin::mint"
    arguments := [.num amount, .str toAcc.address]
    type_arguments := [] }

/-- The `mint` command (ctl.py lines 219-243): resolve the recipient
(`BadParameter` if unknown), submit the mint payload signed by root, then
wait for the transaction. -/
def mintCmd (w : World) (st : AppState) (amount : Int) (toName : String) :
    Except Err Unit × List Event :=
  match getAccount st toName with
  | none => (.error (.accountNotFound toName), [])
  | some toAcc =>
    let payload := mintPayload st amount toAcc
    match w.submit payload with
    | .error e => (.error (.external e), [.submitTx payload])
    | .ok txh =>
      match w.wait txh with
      | .error e => (.error (.external e), [.submitTx payload, .waitForTx txh])
      | .ok _ => (.ok (), [.submitTx payload, .waitForTx txh])

/-- The `fund-account` command (ctl.py lines 261-268): resolve the account
(`BadParameter` if unknown) and call the faucet.  The source performs no
`wait_for_transaction` here. -/
def fundAccountCmd (w : World) (st : AppState) (name : String)
    (amount : Int) : Except Err Unit × List Event :=
  match getAccount st name with
  | none => (.error (.accountNotFound name), [])
  | some acc =>
    match w.fund acc.address amount with
    | .error e => (.error (.external e), [.faucetFund acc.address amount])
    | .ok _ => (.ok (), [.faucetFund acc.address amount])

/-- The `approve-coin` command (ctl.py lines 289-308): resolve the account,
build the BCS `register` call on module `root.address()::MooCoin`, submit
it signed by that account and wait for the transaction.  Building and
submitting the signed BCS transaction are folded into one oracle call. -/
def approveCoinCmd (w : World) (st : AppState) (accountName : String) :
    Except Err Unit × List Event :=
  match getAccount st accountName with
  | none => (.error (.accountNotFound accountName), [])
  | some acc =>
    let ev := Event.submitBcsTx acc.address st.root.address "MooCoin" "register"
    match w.submitBcs acc.address st.root.address "MooCoin" "register" with
    | .error e => (.error (.external e), [ev])
    | .ok txh =>
      match w.wait txh with
      | .error e => (.error (.external e), [ev, .waitForTx txh])
      | .ok _ => (.ok (), [ev, .waitForTx txh])

/-! ## The `list-accounts` fan-out

`list_accounts` (ctl.py lines 271-286) maps `get_balance` over the
accounts with a `ThreadPoolExecutor(max_workers=10)` and zips the
resulting balances back against `accounts.items()`.  The pool is modelled
by an explicit completion schedule `order`: tasks finish in the order the
schedule lists their indices, each recording `(index, balance)`; the
collect barrier (`pool.map`'s result iterator) then reads the results back
in input-index order.  A theorem quantifying over all permutations
`order` covers every completion order any pool (of any size) can
produce. -/

/-- `max_workers` of the pool in the source. -/
def maxWorkers : Nat := 10

/-- The completed tasks in completion order: task `i` computes the balance
of account `i` of `xs`. -/
def runSchedule (bal : String → Int) (xs : List Account)
    (order : List Nat) : List (Nat × Int) :=
  order.filterMap (fun i => (xs.get? i).map (fun a => (i, bal a.address)))

/-- The collect barrier: read one result per input index, in input
order.  `none` only if some task never completed. -/
def poolMapBalances (bal : String → Int) (xs : List Account)
    (order : List Nat) : Option (List Int) :=
  (List.range xs.length).mapM fun j => (runSchedule bal xs order).lookup j

/-- The rows of the table printed by `list_accounts`:
`(name, str(acc.address()), balance)` from
`zip(accounts.items(), balances)`. -/
def listAccountsRows (bal : String → Int) (st : AppState)
    (order : List Nat) : Option (List (String × String × Int)) :=
  let accounts := loadAccounts st
  (poolMapBalances bal (accounts.map Prod.snd) order).map fun balances =>
    (accounts.zip balances).map fun x => (x.1.1, x.1.2.address, x.2)

/-! ## Configuration discovery: `find_config_dir` -/

/-- `chain((start,), start.parents)`: the directory itself, then each
ancestor out to the filesystem root, in strictly outward order.  With
paths as component lists this is the list of prefixes of `start`, longest
first. -/
def ancestorChain (p : List String) : List (List String) :=
  (p.reverse.tails).map List.reverse

/-- `find_config_dir(start, cfg_name)` (ctl.py lines 30-39): for each
directory `d` in the chain, return `d / cfg_name` as soon as it exists;
implicitly return `None` when the loop exhausts.  `fs` is the set of
existing paths (the function only reads it). -/
def findConfigDir (fs : List (List String)) (start : List String)
    (cfgName : String) : Option (List String) :=
  (ancestorChain start).findSome? fun d =>
    let needle := d ++ [cfgName]
    if needle ∈ fs then some needle else none

/-! ## Profile configuration: `get_aptos_profile_config` and
`AppObject.create` -/

/-- A parsed YAML value (the shapes `ctl.py` can encounter). -/
inductive Yaml where
  | null : Yaml
  | str : String → Yaml
  | num : Int → Yaml
  | dict : List (String × Yaml) → Yaml

/-- Subscript/`get_in` step: `y[k]` when `y` is a mapping, otherwise no
value (toolz `get_in` turns the `TypeError`/`KeyError` into its default). -/
def Yaml.get : Yaml → String → Option Yaml
  | .dict es, k => es.lookup k
  | _, _ => none

/-- The outcome of `open()` + `yaml.safe_load` on `config.yaml`. -/
inductive DocRead where
  | missing : DocRead
  | unparseable : DocRead
  | parsed : Yaml → DocRead

/-- `get_in(["profiles", profile_name], all_config)`. -/
def profileRaw (doc : Yaml) (profile : String) : Option Yaml :=
  (doc.get "profiles").bind fun p => p.get profile

/-- `get_aptos_profile_config` (ctl.py lines 64-82): read and parse the
document, extract the profile, and assert the result is `None` or a dict.
YAML `null` loads as Python `None`, so a null profile value and an absent
key are the same observable result. -/
def getAptosProfileConfig (d : DocRead) (profile : String) :
    Except Err (Option (List (String × Yaml))) :=
  match d with
  | .missing => .error .fileNotFoundError
  | .unparseable => .error .yamlError
  | .parsed doc =>
    match profileRaw doc profile with
    | none => .ok none
    | some .null => .ok none
    | some (.dict es) => .ok (some es)
    | some _ =>
        .error (.assertFailed
          "Loaded aptos profile information but it wasn't an object/dictionary")

/-- Python `s.rstrip("/")`: drop every trailing `/`. -/
def rstripSlashes (s : String) : String :=
  String.mk ((s.data.reverse.dropWhile fun c => c = '/').reverse)

/-- The constructed application object (`RestClient`/`FaucetClient` retain
only their base URLs at this level). -/
structure AppObjectModel where
  restUrl : String
  faucetUrl : String
  root : Account
  aptosDir : List String
  profileName : String
deriving DecidableEq, Repr

/-- `cfg[k]` followed by use as a string (`.rstrip` / key decoding):
`KeyError` when absent, `AttributeError`-like failure when not a
string. -/
def cfgStrField (es : List (String × Yaml)) (k : String) :
    Except Err String :=
  match es.lookup k with
  | none => .error (.keyError k)
  | some (.str s) => .ok s
  | some _ => .error .attributeError

/-- `AppObject.create` (ctl.py lines 132-151): `SdkDirNotFound` when no
`.aptos` directory was found; `ProfileNotFound` when the loaded profile is
falsy (absent, null, or an empty mapping); otherwise build the clients
from `rest_url`/`faucet_url` (trailing slashes stripped) and load the root
key from `private_key`. -/
def appCreate (aptosDir : Option (List String)) (d : DocRead)
    (profile : String) : Except Err AppObjectModel :=
  match aptosDir with
  | none => .error .sdkDirNotFound
  | some dir =>
    match getAptosProfileConfig d profile with
    | .error e => .error e
    | .ok none => .error .profileNotFound
    | .ok (some []) => .error .profileNotFound
    | .ok (some es) =>
      match cfgStrField es "rest_url" with
      | .error e => .error e
      | .ok ru =>
        match cfgStrField es "faucet_url" with
        | .error e => .error e
        | .ok fu =>
          match cfgStrField es "private_key" with
          | .error e => .error e
          | .ok pk =>
            .ok { restUrl := rstripSlashes ru
                  faucetUrl := rstripSlashes fu
                  root := ⟨pk⟩
                  aptosDir := dir
                  profileName := profile }

/-! ## Reachable keystore states

The only operation that writes the keystore directory is
`create_account`; `mint`, `fund-account`, `approve-coin` and
`list-accounts` never touch it (their embeddings return no state).  A
state is reachable when it arises from a fresh keystore by any sequence
of `create_account` calls against arbitrary worlds; `created` records the
names of the calls that succeeded, in order. -/
inductive Reachable : List String → AppState → Prop where
  | init (root : Account) (dir : List String) (profile : String) (n : Nat) :
      Reachable [] ⟨root, dir, profile, [], n⟩
  | step (w : World) (name : String) (amt : Int) (created : List String)
      (st : AppState) (h : Reachable created st) :
      Reachable
        (if (createAccount w st name amt).result.isOk
         then created ++ [name] else created)
        (createAccount w st name amt).state

/-- Python falsiness of the loaded profile value: absent key, YAML null,
or an empty mapping. -/
def profileAbsentOrEmpty (doc : Yaml) (profile : String) : Bool :=
  match profileRaw doc profile with
  | none => true
  | some .null => true
  | some (.dict []) => true
  | some _ => false

/-! ## Concrete fixtures (worlds, states, documents) used by witnesses and
counterexamples -/

/-- A world in which every remote call succeeds. -/
def wOk : World :=
  { submit := fun _ => .ok 1
    wait := fun _ => .ok ()
    fund := fun _ _ => .ok ()
    submitBcs := fun _ _ _ _ => .ok 2 }

/-- A world in which the faucet call raises. -/
def wFundFails : World :=
  { submit := fun _ => .ok 1
    wait := fun _ => .ok ()
    fund := fun _ _ => .error "faucet down"
    submitBcs := fun _ _ _ _ => .ok 2 }

/-- A world in which transaction submission raises. -/
def wSubmitFails : World :=
  { submit := fun _ => .error "submit rejected"
    wait := fun _ => .ok ()
    fund := fun _ _ => .ok ()
    submitBcs := fun _ _ _ _ => .ok 2 }

/-- A fresh application state: empty keystore directory. -/
def st0 : AppState := ⟨⟨"rootkey"⟩, ["x", ".aptos"], "default", [], 0⟩

/-- Profile entries of the sample settings document. -/
def esW : List (String × Yaml) :=
  [("rest_url", .str "http://node//"), ("faucet_url", .str "http://faucet/"),
   ("private_key", .str "abc")]

/-- A sample settings document with one profile, `default`. -/
def docW : Yaml := .dict [("profiles", .dict [("default", .dict esW)])]

/-! # Theorems -/

/-! ## Helper lemmas: one equation per control-flow branch of
`create_account` -/

theorem createAccount_root (w : World) (st : AppState) (amt : Int) :
    createAccount w st "root" amt =
      ⟨.error (.assertFailed "name 'root' is reserved"), [], st⟩ := by
  simp [createAccount]

theorem createAccount_already (w : World) (st : AppState) (name : String)
    (amt : Int) (h1 : name ≠ "root") (h2 : (st.keys.lookup name).isSome) :
    createAccount w st name amt = ⟨.error .accountAlreadyExists, [], st⟩ := by
  simp [createAccount, h1, h2]

theorem createAccount_submit_raises (w : World) (st : AppState)
    (name : String) (amt : Int) (e : String)
    (h1 : name ≠ "root") (h2 : st.keys.lookup name = none)
    (hs : w.submit (createAccPayload (Account.generate st.nextKey)) = .error e) :
    createAccount w st name amt =
      ⟨.error (.external e),
       [.submitTx (createAccPayload (Account.generate st.nextKey))],
       { st with nextKey := st.nextKey + 1 }⟩ := by
  simp [createAccount, h1, h2, hs]

theorem createAccount_wait_raises (w : World) (st : AppState)
    (name : String) (amt : Int) (txh : Nat) (e : String)
    (h1 : name ≠ "root") (h2 : st.keys.lookup name = none)
    (hs : w.submit (createAccPayload (Account.generate st.nextKey)) = .ok txh)
    (hw : w.wait txh = .error e) :
    createAccount w st name amt =
      ⟨.error (.external e),
       [.submitTx (createAccPayload (Account.generate st.nextKey)),
        .waitForTx txh],
       { st with nextKey := st.nextKey + 1 }⟩ := by
  simp [createAccount, h1, h2, hs, hw]

theorem createAccount_fund_raises (w : World) (st : AppState)
    (name : String) (amt : Int) (txh : Nat) (e : String)
    (h1 : name ≠ "root") (h2 : st.keys.lookup name = none)
    (hs : w.submit (createAccPayload (Account.generate st.nextKey)) = .ok txh)
    (hw : w.wait txh = .ok ()) (hamt : 0 < amt)
    (hf : w.fund (Account.generate st.nextKey).address amt = .error e) :
    createAccount w st name amt =
      ⟨.error (.external e),
       [.submitTx (createAccPayload (Account.generate st.nextKey)),
        .waitForTx txh,
        .faucetFund (Account.generate st.nextKey).address amt],
       { st with nextKey := st.nextKey + 1 }⟩ := by
  simp [createAccount, h1, h2, hs, hw, hamt, hf]

theorem createAccount_funded_ok (w : World) (st : AppState)
    (name : String) (amt : Int) (txh : Nat)
    (h1 : name ≠ "root") (h2 : st.keys.lookup name = none)
    (hs : w.submit (createAccPayload (Account.generate st.nextKey)) = .ok txh)
    (hw : w.wait txh = .ok ()) (hamt : 0 < amt)
    (hf : w.fund (Account.generate st.nextKey).address amt = .ok ()) :
    createAccount w st name amt =
      ⟨.ok (Account.generate st.nextKey),
       [.submitTx (createAccPayload (Account.generate st.nextKey)),
        .waitForTx txh,
        .faucetFund (Account.generate st.nextKey).address amt,
        .mkdirKeys (keysDirPath st),
        .writeKeyFile (keysDirPath st ++ [keyFileName name])
          (Account.generate st.nextKey)],
       { st with keys := st.keys ++ [(name, Account.generate st.nextKey)],
                 nextKey := st.nextKey + 1 }⟩ := by
  simp [createAccount, h1, h2, hs, hw, hamt, hf, keysDirPath]

theorem createAccount_unfunded_ok (w : World) (st : AppState)
    (name : String) (amt : Int) (txh : Nat)
    (h1 : name ≠ "root") (h2 : st.keys.lookup name = none)
    (hs : w.submit (createAccPayload (Account.generate st.nextKey)) = .ok txh)
    (hw : w.wait txh = .ok ()) (hamt : ¬ 0 < amt) :
    createAccount w st name amt =
      ⟨.ok (Account.generate st.nextKey),
       [.submitTx (createAccPayload (Account.generate st.nextKey)),
        .waitForTx txh,
        .mkdirKeys (keysDirPath st),
        .writeKeyFile (keysDirPath st ++ [keyFileName name])
          (Account.generate st.nextKey)],
       { st with keys := st.keys ++ [(name, Account.generate st.nextKey)],
                 nextKey := st.nextKey + 1 }⟩ := by
  simp [createAccount, h1, h2, hs, hw, hamt, keysDirPath]

/-- A successful `create_account` returned the generated account, appended
exactly one key file to the directory, and can only have happened for a
non-reserved, fresh name. -/
theorem createAccount_ok_spec (w : World) (st : AppState) (name : String)
    (amt : Int) (acc : Account)
    (h : (createAccount w st name amt).result = .ok acc) :
    acc = Account.generate st.nextKey ∧
    (createAccount w st name amt).state.keys = st.keys ++ [(name, acc)] ∧
    name ≠ "root" ∧ st.keys.lookup name = none := by
  by_cases hroot : name = "root"
  · subst hroot
    rw [createAccount_root] at h
    exact absurd h (by simp)
  by_cases hfresh : (st.keys.lookup name).isSome
  · rw [createAccount_already w st name amt hroot hfresh] at h
    exact absurd h (by simp)
  have h2 : st.keys.lookup name = none :=
    Option.not_isSome_iff_eq_none.mp hfresh
  rcases hs : w.submit (createAccPayload (Account.generate st.nextKey))
    with e | txh
  · rw [createAccount_submit_raises w st name amt e hroot h2 hs] at h
    exact absurd h (by simp)
  rcases hw : w.wait txh with e | u
  · rw [createAccount_wait_raises w st name amt txh e hroot h2 hs hw] at h
    exact absurd h (by simp)
  cases u
  by_cases hamt : 0 < amt
  · rcases hf : w.fund (Account.generate st.nextKey).address amt with e | u2
    · rw [createAccount_fund_raises w st name amt txh e hroot h2 hs hw hamt hf]
        at h
      exact absurd h (by simp)
    cases u2
    rw [createAccount_funded_ok w st name amt txh hroot h2 hs hw hamt hf]
      at h ⊢
    simp only [Except.ok.injEq] at h
    subst h
    exact ⟨rfl, rfl, hroot, h2⟩
  · rw [createAccount_unfunded_ok w st name amt txh hroot h2 hs hw hamt]
      at h ⊢
    simp only [Except.ok.injEq] at h
    subst h
    exact ⟨rfl, rfl, hroot, h2⟩

/-- Whatever happens, a `create_account` call either appends exactly the
one new key file (on success) or leaves the keystore directory unchanged
(on any raise). -/
theorem createAccount_keys_cases (w : World) (st : AppState)
    (name : String) (amt : Int) :
    ((createAccount w st name amt).result.isOk = true ∧
      (createAccount w st name amt).state.keys =
        st.keys ++ [(name, Account.generate st.nextKey)] ∧
      name ≠ "root" ∧ st.keys.lookup name = none) ∨
    ((createAccount w st name amt).result.isOk = false ∧
      (createAccount w st name amt).state.keys = st.keys) := by
  rcases h : (createAccount w st name amt).result with e | acc
  · right
    refine ⟨by simp [h, Except.isOk, Except.toBool], ?_⟩
    by_cases hroot : name = "root"
    · subst hroot; rw [createAccount_root]
    by_cases hfresh : (st.keys.lookup name).isSome
    · rw [createAccount_already w st name amt hroot hfresh]
    have h2 : st.keys.lookup name = none :=
      Option.not_isSome_iff_eq_none.mp hfresh
    rcases hs : w.submit (createAccPayload (Account.generate st.nextKey))
      with e' | txh
    · rw [createAccount_submit_raises w st name amt e' hroot h2 hs]
    rcases hw : w.wait txh with e' | u
    · rw [createAccount_wait_raises w st name amt txh e' hroot h2 hs hw]
    cases u
    by_cases hamt : 0 < amt
    · rcases hf : w.fund (Account.generate st.nextKey).address amt
        with e' | u2
      · rw [createAccount_fund_raises w st name amt txh e' hroot h2 hs hw
          hamt hf]
      cases u2
      rw [createAccount_funded_ok w st name amt txh hroot h2 hs hw hamt hf]
        at h
      exact absurd h (by simp)
    · rw [createAccount_unfunded_ok w st name amt txh hroot h2 hs hw hamt]
        at h
      exact absurd h (by simp)
  · left
    obtain ⟨hacc, hkeys, hroot, hfresh⟩ :=
      createAccount_ok_spec w st name amt acc h
    exact ⟨by simp [h, Except.isOk, Except.toBool], by rw [hkeys, hacc],
      hroot, hfresh⟩

/-- A key file just appended for `k` is found by a later lookup of `k`. -/
theorem lookup_append_singleton_isSome (l : List (String × Account))
    (k : String) (v : Account) : ((l ++ [(k, v)]).lookup k).isSome := by
  induction l with
  | nil => simp
  | cons a t ih =>
    rw [List.cons_append]
    rcases a with ⟨ka, va⟩
    rw [List.lookup_cons]
    by_cases hk : k = ka
    · simp [hk]
    · rw [show (k == ka) = false from beq_eq_false_iff_ne.mpr hk]
      exact ih

/-- A lookup of `k` in a directory whose names all differ from `k` is
empty. -/
theorem lookup_eq_none_of_not_mem (l : List (String × Account))
    (k : String) (h : k ∉ l.map Prod.fst) : l.lookup k = none := by
  induction l with
  | nil => rfl
  | cons a t ih =>
    rcases a with ⟨ka, va⟩
    simp only [List.map_cons, List.mem_cons, not_or] at h
    rw [List.lookup_cons]
    have : (k == ka) = false := beq_eq_false_iff_ne.mpr h.1
    rw [this]
    exact ih h.2

/-- Conversely, an empty lookup means the name is absent. -/
theorem not_mem_of_lookup_eq_none (l : List (String × Account))
    (k : String) (h : l.lookup k = none) : k ∉ l.map Prod.fst := by
  induction l with
  | nil => simp
  | cons a t ih =>
    rcases a with ⟨ka, va⟩
    rw [List.lookup_cons] at h
    simp only [List.map_cons, List.mem_cons, not_or]
    rcases hk : (k == ka) with _ | _
    · rw [hk] at h
      exact ⟨by simpa using hk, ih h⟩
    · rw [hk] at h
      simp at h

/-! ## Claim C5 -/

/-- **C5**: for every keystore state, `create_account("root", amt)` fails
with the reserved-name error (the failing `assert name != "root"`, the
error the spec's taxonomy calls `ReservedName`), with an empty event trace
(no on-chain call, no faucet call, no directory creation, no file write)
and a completely unchanged state (in particular the randomness counter has
not moved, so no key-pair was generated). -/
theorem create_root_fails_reserved (w : World) (st : AppState) (amt : Int) :
    createAccount w st "root" amt =
      ⟨.error (.assertFailed "name 'root' is reserved"), [], st⟩ :=
  createAccount_root w st amt

/-! ## Claim C6 -/

/-- **C6**: for a name other than `"root"`, after a first
`create_account(name)` succeeded, a second `create_account(name)` fails
with `AccountAlreadyExists`, with an empty event trace — no second
creation transaction is submitted, no confirmation wait happens and no
faucet call is made — and the state is unchanged. -/
theorem second_create_fails_before_network (w1 w2 : World) (st : AppState)
    (name : String) (amt1 amt2 : Int) (acc : Account)
    (hroot : name ≠ "root")
    (h1 : (createAccount w1 st name amt1).result = .ok acc) :
    createAccount w2 (createAccount w1 st name amt1).state name amt2 =
      ⟨.error .accountAlreadyExists, [],
       (createAccount w1 st name amt1).state⟩ := by
  obtain ⟨-, hkeys, -, -⟩ := createAccount_ok_spec w1 st name amt1 acc h1
  refine createAccount_already w2 _ name amt2 hroot ?_
  rw [hkeys]
  exact lookup_append_singleton_isSome st.keys name acc

/-- Witness for C6 at a concrete input: creating `"bob"` twice from the
fresh state, the second call fails locally with no events. -/
theorem second_create_fails_before_network_witness :
    createAccount wOk (createAccount wOk st0 "bob" 0).state "bob" 7 =
      ⟨.error .accountAlreadyExists, [],
       (createAccount wOk st0 "bob" 0).state⟩ :=
  second_create_fails_before_network wOk wOk st0 "bob" 0 7 ⟨"k0"⟩
    (by decide) rfl

/-! ## Claim C1 -/

/-- **C1 counterexample**: a concrete run refuting the claim.  In
`wFundFails` the creation transaction is submitted and its confirmation
awaited (both events precede the faucet call in the trace), then the
faucet call raises — and the account is **not** persisted: the keystore
directory is still empty afterwards and `get_account("alice")` returns
`None`, while the claim asserts a key file exists and `get` resolves the
account. -/
theorem funding_failure_counterexample :
    (createAccount wFundFails st0 "alice" 100).events =
      [.submitTx (createAccPayload ⟨"k0"⟩), .waitForTx 1,
       .faucetFund "0xk0" 100] ∧
    (createAccount wFundFails st0 "alice" 100).result =
      .error (.external "faucet down") ∧
    (createAccount wFundFails st0 "alice" 100).state.keys = [] ∧
    getAccount (createAccount wFundFails st0 "alice" 100).state "alice" =
      none :=
  ⟨rfl, rfl, rfl, rfl⟩

/-- **C1 (amended)**: if the on-chain account-creation transaction was
confirmed and the subsequent funding sub-operation fails (the faucet call
raises), the created account is **not** persisted: the exception
propagates, the keystore directory is unchanged — no key file for the
name exists afterwards — and `get_account(name)` returns `None`.  The
confirmed on-chain identity is left locally unknown (the orphan direction
§7 allows), because the source funds *before* persisting. -/
theorem funding_failure_leaves_account_unpersisted (w : World)
    (st : AppState) (name : String) (amt : Int) (txh : Nat) (msg : String)
    (hroot : name ≠ "root") (hfresh : st.keys.lookup name = none)
    (hamt : 0 < amt)
    (hs : w.submit (createAccPayload (Account.generate st.nextKey)) = .ok txh)
    (hw : w.wait txh = .ok ())
    (hf : w.fund (Account.generate st.nextKey).address amt = .error msg) :
    (createAccount w st name amt).result = .error (.external msg) ∧
    (createAccount w st name amt).state.keys = st.keys ∧
    getAccount (createAccount w st name amt).state name = none := by
  rw [createAccount_fund_raises w st name amt txh msg hroot hfresh hs hw
    hamt hf]
  refine ⟨rfl, rfl, ?_⟩
  simp [getAccount, hroot, hfresh]

/-- Witness for the amended C1 at a concrete input. -/
theorem funding_failure_leaves_account_unpersisted_witness :
    (createAccount wFundFails st0 "carol" 50).result =
      .error (.external "faucet down") ∧
    (createAccount wFundFails st0 "carol" 50).state.keys = st0.keys ∧
    getAccount (createAccount wFundFails st0 "carol" 50).state "carol" =
      none :=
  funding_failure_leaves_account_unpersisted wFundFails st0 "carol" 50 1
    "faucet down" (by decide) rfl (by decide) rfl rfl rfl

/-! ## Claim C2 -/

/-- **C2 counterexample**: a concrete successful funded creation in which
the faucet call happens *before* the key file write — the third event is
the faucet call and the file write is last — so the claim's order
(persist at step 3, fund at step 4) is false. -/
theorem create_order_counterexample :
    (createAccount wOk st0 "alice" 100).result = .ok ⟨"k0"⟩ ∧
    (createAccount wOk st0 "alice" 100).events =
      [.submitTx (createAccPayload ⟨"k0"⟩), .waitForTx 1,
       .faucetFund "0xk0" 100,
       .mkdirKeys ["x", ".aptos", "keys", "default"],
       .writeKeyFile ["x", ".aptos", "keys", "default", "alice.json"]
         ⟨"k0"⟩] ∧
    List.findIdx Event.isFaucetFund
        (createAccount wOk st0 "alice" 100).events <
      List.findIdx Event.isWriteKeyFile
        (createAccount wOk st0 "alice" 100).events :=
  ⟨rfl, rfl, by decide⟩

/-- **C2 (amended)**: for a fresh, non-reserved name and positive fund
amount, `create_account` performs its side effects in this order:
(1) submit the ledger create-account transaction carrying the new
account's address, (2) await its confirmation, (3) call the faucet fund
operation for that address and amount, (4) create the keys directory and
persist the key file under `<settings_root>/keys/<profile>/<name>.json` —
i.e. the claim's steps (3) and (4) happen in the opposite order.  If
step (1) fails, the exception propagates with no key file written and no
funding call made. -/
theorem create_account_effect_order (w : World) (st : AppState)
    (name : String) (amt : Int)
    (hroot : name ≠ "root") (hfresh : st.keys.lookup name = none)
    (hamt : 0 < amt) :
    (∀ txh,
      w.submit (createAccPayload (Account.generate st.nextKey)) = .ok txh →
      w.wait txh = .ok () →
      w.fund (Account.generate st.nextKey).address amt = .ok () →
      createAccount w st name amt =
        ⟨.ok (Account.generate st.nextKey),
         [.submitTx (createAccPayload (Account.generate st.nextKey)),
          .waitForTx txh,
          .faucetFund (Account.generate st.nextKey).address amt,
          .mkdirKeys (keysDirPath st),
          .writeKeyFile (keysDirPath st ++ [keyFileName name])
            (Account.generate st.nextKey)],
         { st with keys := st.keys ++ [(name, Account.generate st.nextKey)],
                   nextKey := st.nextKey + 1 }⟩)
  ∧ (∀ msg,
      w.submit (createAccPayload (Account.generate st.nextKey)) = .error msg →
      createAccount w st name amt =
        ⟨.error (.external msg),
         [.submitTx (createAccPayload (Account.generate st.nextKey))],
         { st with nextKey := st.nextKey + 1 }⟩) :=
  ⟨fun txh hs hw hf =>
    createAccount_funded_ok w st name amt txh hroot hfresh hs hw hamt hf,
   fun msg hs =>
    createAccount_submit_raises w st name amt msg hroot hfresh hs⟩

/-- Witness for the amended C2: the concrete success trace and the
concrete submission-failure trace. -/
theorem create_account_effect_order_witness :
    createAccount wOk st0 "alice" 100 =
      ⟨.ok (Account.generate 0),
       [.submitTx (createAccPayload (Account.generate 0)), .waitForTx 1,
        .faucetFund (Account.generate 0).address 100,
        .mkdirKeys (keysDirPath st0),
        .writeKeyFile (keysDirPath st0 ++ [keyFileName "alice"])
          (Account.generate 0)],
       { st0 with keys := st0.keys ++ [("alice", Account.generate 0)],
                  nextKey := 1 }⟩ ∧
    createAccount wSubmitFails st0 "alice" 100 =
      ⟨.error (.external "submit rejected"),
       [.submitTx (createAccPayload (Account.generate 0))],
       { st0 with nextKey := 1 }⟩ :=
  ⟨(create_account_effect_order wOk st0 "alice" 100 (by decide) rfl
      (by decide)).1 1 rfl rfl rfl,
   (create_account_effect_order wSubmitFails st0 "alice" 100 (by decide)
      rfl (by decide)).2 "submit rejected" rfl⟩

/-! ## Claim C3 -/

/-- **C3 counterexample**: a concrete successful standalone fund
operation whose whole event trace is the single faucet call — it contains
no confirmation wait, refuting the claim that the fund operation also
blocks until the ledger confirms the funding transaction. -/
theorem fund_no_confirmation_counterexample :
    (fundAccountCmd wOk st0 "root" 5).1 = .ok () ∧
    (fundAccountCmd wOk st0 "root" 5).2 = [.faucetFund "0xrootkey" 5] ∧
    (fundAccountCmd wOk st0 "root" 5).2.any Event.isWaitForTx = false :=
  ⟨rfl, rfl, rfl⟩

/-- **C3 (amended)**: create-account, mint, and approve/register each
submit their transaction and then block until the ledger confirms it
before reporting success; the standalone fund operation instead only
invokes the faucet client for the address and amount and reports its
outcome without itself performing any confirmation wait (its trace never
contains one). -/
theorem mutating_ops_submit_and_confirm (w : World) (st : AppState) :
    (∀ amount toName acc txh, getAccount st toName = some acc →
      w.submit (mintPayload st amount acc) = .ok txh →
      w.wait txh = .ok () →
      mintCmd w st amount toName =
        (.ok (), [.submitTx (mintPayload st amount acc), .waitForTx txh]))
  ∧ (∀ name acc txh, getAccount st name = some acc →
      w.submitBcs acc.address st.root.address "MooCoin" "register" = .ok txh →
      w.wait txh = .ok () →
      approveCoinCmd w st name =
        (.ok (),
         [.submitBcsTx acc.address st.root.address "MooCoin" "register",
          .waitForTx txh]))
  ∧ (∀ name amt txh, name ≠ "root" → st.keys.lookup name = none →
      w.submit (createAccPayload (Account.generate st.nextKey)) = .ok txh →
      w.wait txh = .ok () →
      (0 < amt → w.fund (Account.generate st.nextKey).address amt = .ok ()) →
      (createAccount w st name amt).result =
        .ok (Account.generate st.nextKey) ∧
      Event.waitForTx txh ∈ (createAccount w st name amt).events)
  ∧ (∀ name amount,
      (fundAccountCmd w st name amount).2.any Event.isWaitForTx = false)
  ∧ (∀ name amount acc, getAccount st name = some acc →
      (fundAccountCmd w st name amount).2 =
        [.faucetFund acc.address amount]) := by
  refine ⟨?_, ?_, ?_, ?_, ?_⟩
  · intro amount toName acc txh hacc hs hw
    simp [mintCmd, hacc, hs, hw]
  · intro name acc txh hacc hs hw
    simp [approveCoinCmd, hacc, hs, hw]
  · intro name amt txh hroot hfresh hs hw hf
    by_cases hamt : 0 < amt
    · rw [createAccount_funded_ok w st name amt txh hroot hfresh hs hw hamt
        (hf hamt)]
      exact ⟨rfl, by simp⟩
    · rw [createAccount_unfunded_ok w st name amt txh hroot hfresh hs hw
        hamt]
      exact ⟨rfl, by simp⟩
  · intro name amount
    unfold fundAccountCmd
    rcases hacc : getAccount st name with _ | acc
    · simp [hacc]
    · rcases hfund : w.fund acc.address amount with e | u <;>
        simp [hacc, hfund, Event.isWaitForTx]
  · intro name amount acc hacc
    unfold fundAccountCmd
    rcases hfund : w.fund acc.address amount with e | u <;>
      simp [hacc, hfund]

/-- Witness for the amended C3: each conjunct exercised at a concrete
input in the all-succeeding world. -/
theorem mutating_ops_submit_and_confirm_witness :
    mintCmd wOk st0 7 "root" =
      (.ok (), [.submitTx (mintPayload st0 7 st0.root), .waitForTx 1]) ∧
    approveCoinCmd wOk st0 "root" =
      (.ok (),
       [.submitBcsTx st0.root.address st0.root.address "MooCoin" "register",
        .waitForTx 2]) ∧
    ((createAccount wOk st0 "dave" 0).result = .ok (Account.generate 0) ∧
      Event.waitForTx 1 ∈ (createAccount wOk st0 "dave" 0).events) ∧
    (fundAccountCmd wOk st0 "root" 9).2.any Event.isWaitForTx = false ∧
    (fundAccountCmd wOk st0 "root" 9).2 =
      [.faucetFund st0.root.address 9] :=
  ⟨(mutating_ops_submit_and_confirm wOk st0).1 7 "root" st0.root 1 rfl rfl
     rfl,
   (mutating_ops_submit_and_confirm wOk st0).2.1 "root" st0.root 2 rfl rfl
     rfl,
   (mutating_ops_submit_and_confirm wOk st0).2.2.1 "dave" 0 1 (by decide)
     rfl rfl rfl (fun h => absurd h (by decide)),
   (mutating_ops_submit_and_confirm wOk st0).2.2.2.1 "root" 9,
   (mutating_ops_submit_and_confirm wOk st0).2.2.2.2 "root" 9 st0.root rfl⟩

/-! ## Claim C4 -/

/-- Invariant of reachable keystore states: the directory holds exactly
one key file per successfully created name, in creation order; `"root"`
was never created; and created names are pairwise distinct. -/
theorem reachable_keys_spec (created : List String) (st : AppState)
    (h : Reachable created st) :
    st.keys.map Prod.fst = created ∧ "root" ∉ created ∧ created.Nodup := by
  induction h with
  | init root dir profile n => simp
  | step w name amt created st hr ih =>
    obtain ⟨hmap, hroot, hnodup⟩ := ih
    rcases createAccount_keys_cases w st name amt with
      ⟨hok, hkeys, hname, hfresh⟩ | ⟨hok, hkeys⟩
    · have hnotmem : name ∉ created := by
        rw [← hmap]
        exact not_mem_of_lookup_eq_none st.keys name hfresh
      simp only [hok, if_true]
      refine ⟨?_, ?_, ?_⟩
      · rw [hkeys, List.map_append, hmap]
        rfl
      · simp only [List.mem_append, List.mem_singleton, not_or]
        exact ⟨hroot, fun he => hname he.symm⟩
      · rw [← List.concat_eq_append]
        exact List.Nodup.concat hnotmem hnodup
    · simp only [hok, Bool.false_eq_true, if_false]
      exact ⟨by rw [hkeys, hmap], hroot, hnodup⟩

/-- Folding Python-dict insertion over entries whose keys are fresh and
pairwise distinct just appends them. -/
theorem foldl_dictInsert_disjoint (ks : List (String × Account)) :
    ∀ init : List (String × Account),
    (ks.map Prod.fst).Nodup →
    (∀ k, k ∈ ks.map Prod.fst → k ∉ init.map Prod.fst) →
    ks.foldl (fun res kv => dictInsert res kv.1 kv.2) init = init ++ ks := by
  induction ks with
  | nil => intro init _ _; simp
  | cons a t ih =>
    intro init hnd hdisj
    rw [List.foldl_cons]
    have hnotin : a.1 ∉ init.map Prod.fst := hdisj a.1 (by simp)
    have hins : dictInsert init a.1 a.2 = init ++ [a] := by
      unfold dictInsert
      rw [if_neg, Prod.mk.eta]
      simp only [List.any_eq_true, decide_eq_true_eq, not_exists, not_and]
      intro kv hkv he
      exact hnotin (List.mem_map.mpr ⟨kv, hkv, he⟩)
    rw [hins]
    simp only [List.map_cons, List.nodup_cons] at hnd
    rw [ih (init ++ [a]) hnd.2 ?_, List.append_assoc]
    · rfl
    intro k hk
    simp only [List.map_append, List.mem_append, not_or, List.map_cons,
      List.map_nil, List.mem_singleton]
    refine ⟨hdisj k (by simp [hk]), ?_⟩
    intro he
    exact hnd.1 (he ▸ hk)

/-- **C4**: in every reachable keystore state, `load_accounts` returns the
in-memory root synthesized as the first entry, followed by exactly the
persisted entries; those persisted entries are exactly the names
successfully created (in order), and `"root"` is never among them, so the
`"root"` row never comes from a persisted file. -/
theorem load_accounts_root_synthesized (created : List String)
    (st : AppState) (h : Reachable created st) :
    loadAccounts st = ("root", st.root) :: st.keys ∧
    st.keys.map Prod.fst = created ∧
    "root" ∉ created := by
  obtain ⟨hmap, hroot, hnodup⟩ := reachable_keys_spec created st h
  refine ⟨?_, hmap, hroot⟩
  unfold loadAccounts
  rw [foldl_dictInsert_disjoint st.keys [("root", st.root)]
    (by rw [hmap]; exact hnodup) ?_]
  · rfl
  intro k hk
  rw [hmap] at hk
  simp only [List.map_cons, List.map_nil, List.mem_singleton]
  intro he
  exact hroot (he ▸ hk)

/-- Witness for C4 at a concrete reachable state (one successful
creation). -/
theorem load_accounts_root_synthesized_witness :
    loadAccounts (createAccount wOk st0 "alice" 0).state =
      ("root", (createAccount wOk st0 "alice" 0).state.root) ::
        (createAccount wOk st0 "alice" 0).state.keys ∧
    (createAccount wOk st0 "alice" 0).state.keys.map Prod.fst =
      ["alice"] ∧
    "root" ∉ ["alice"] := by
  have h0 : Reachable [] st0 :=
    Reachable.init ⟨"rootkey"⟩ ["x", ".aptos"] "default" 0
  have h1 : Reachable ["alice"] (createAccount wOk st0 "alice" 0).state :=
    Reachable.step wOk "alice" 0 [] st0 h0
  exact load_accounts_root_synthesized ["alice"] _ h1

/-! ## Claim C8 -/

/-- The chain starts with the list itself. -/
theorem tails_head_eq {α : Type} (l : List α) : l.tails.head? = some l := by
  cases l with
  | nil => rfl
  | cons a t => rw [List.tails_cons]; rfl

/-- `find?` over `tails` returns the longest (first-listed) satisfying
suffix: whenever some suffix satisfies `p`, the result satisfies `p` and
is at least as long as any satisfying suffix. -/
theorem find?_tails_longest {α : Type} (p : List α → Bool) (l : List α) :
    ∀ d : List α, d ∈ l.tails → p d = true →
    ∃ r, l.tails.find? p = some r ∧ p r = true ∧ d.length ≤ r.length := by
  induction l with
  | nil =>
    intro d hd hp
    simp only [show ([] : List α).tails = [[]] from rfl,
      List.mem_singleton] at hd
    subst hd
    exact ⟨[], List.find?_cons_of_pos _ hp, hp, le_refl _⟩
  | cons a t ih =>
    intro d hd hp
    rw [List.tails_cons] at hd ⊢
    by_cases hal : p (a :: t) = true
    · refine ⟨a :: t, List.find?_cons_of_pos _ hal, hal, ?_⟩
      rcases List.mem_cons.mp hd with h1 | h2
      · rw [h1]
      · exact le_trans ((List.mem_tails _ _).mp h2).length_le (by simp)
    · rcases List.mem_cons.mp hd with h1 | h2
      · exact absurd (h1 ▸ hp) hal
      obtain ⟨r, hr, hpr, hlen⟩ := ih d h2 hp
      exact ⟨r, by rw [List.find?_cons_of_neg _ hal]; exact hr, hpr, hlen⟩

/-- The source loop (compute needle, test existence, return it) is
`find?` of the existence test followed by appending the name. -/
theorem findSome?_needle_eq {α : Type} [DecidableEq α]
    (fs : List (List α)) (n : α) (l : List (List α)) :
    (l.findSome? fun d =>
        let needle := d ++ [n]
        if needle ∈ fs then some needle else none) =
      (l.find? fun d => decide ((d ++ [n]) ∈ fs)).map
        (fun d => d ++ [n]) := by
  induction l with
  | nil => rfl
  | cons a t ih =>
    by_cases h : (a ++ [n]) ∈ fs
    · rw [List.findSome?_cons, List.find?_cons_of_pos _ (by simpa using h)]
      simp [h]
    · rw [List.findSome?_cons, List.find?_cons_of_neg _ (by simpa using h)]
      simp [h, ih]

/-- **C8**: `find_config_dir` checks the starting directory first
(`ancestorChain` begins with `start`), then each ancestor strictly
outward; if no directory in the chain contains the anchor it returns
`None` (no error); and if any does, it returns a needle built from a
chain directory that contains the anchor and is at least as deep as every
chain directory containing it — the nearest match.  The function is pure
(it only reads `fs`), so repeated calls agree by construction. -/
theorem find_config_dir_nearest (fs : List (List String))
    (start : List String) (cfgName : String) :
    ((ancestorChain start).head? = some start)
  ∧ ((∀ d ∈ ancestorChain start, d ++ [cfgName] ∉ fs) →
      findConfigDir fs start cfgName = none)
  ∧ (∀ d ∈ ancestorChain start, d ++ [cfgName] ∈ fs →
      ∃ r, findConfigDir fs start cfgName = some (r ++ [cfgName]) ∧
        r ∈ ancestorChain start ∧ r ++ [cfgName] ∈ fs ∧
        d.length ≤ r.length) := by
  refine ⟨?_, ?_, ?_⟩
  · unfold ancestorChain
    rw [List.head?_map, tails_head_eq]
    simp [List.reverse_reverse]
  · intro hnone
    unfold findConfigDir
    rw [findSome?_needle_eq, List.find?_eq_none.mpr ?_]
    · rfl
    intro d hd
    simp only [decide_eq_true_eq]
    exact hnone d hd
  · intro d hd hmem
    unfold findConfigDir
    rw [findSome?_needle_eq]
    have hd' : d.reverse ∈ start.reverse.tails := by
      obtain ⟨x, hx, hxe⟩ := List.mem_map.mp hd
      rw [← hxe, List.reverse_reverse]
      exact hx
    have hp : (fun s : List String =>
        decide ((s.reverse ++ [cfgName]) ∈ fs)) d.reverse = true := by
      simp only [List.reverse_reverse, decide_eq_true_eq]
      exact hmem
    obtain ⟨r, hr, hpr, hlen⟩ :=
      find?_tails_longest
        (fun s => decide ((s.reverse ++ [cfgName]) ∈ fs))
        start.reverse d.reverse hd' hp
    have hr2 : List.find?
        ((fun d => decide ((d ++ [cfgName]) ∈ fs)) ∘ List.reverse)
        start.reverse.tails = some r := hr
    refine ⟨r.reverse, ?_, ?_, ?_, ?_⟩
    · unfold ancestorChain
      rw [List.find?_map, hr2]
      rfl
    · exact List.mem_map.mpr ⟨r, List.mem_of_find?_eq_some hr, rfl⟩
    · simpa using of_decide_eq_true hpr
    · calc d.length = d.reverse.length := (List.length_reverse d).symm
        _ ≤ r.length := hlen
        _ = r.reverse.length := (List.length_reverse r).symm

/-- Existing paths for the C8 witness: anchors at depth 1 and depth 3. -/
def fsW : List (List String) :=
  [["a", ".aptos"], ["a", "b", "c", ".aptos"], ["q"]]

/-- Witness for C8: searching upward from depth 4 finds the depth-3
anchor, not the depth-1 one, and a search with no anchor anywhere returns
`None`. -/
theorem find_config_dir_nearest_witness :
    findConfigDir fsW ["a", "b", "c", "d"] ".aptos" =
      some ["a", "b", "c", ".aptos"] ∧
    (∃ r, findConfigDir fsW ["a", "b", "c", "d"] ".aptos" =
        some (r ++ [".aptos"]) ∧
      r ∈ ancestorChain ["a", "b", "c", "d"] ∧ r ++ [".aptos"] ∈ fsW ∧
      (["a"] : List String).length ≤ r.length) ∧
    findConfigDir fsW ["z"] ".aptos" = none :=
  ⟨rfl,
   (find_config_dir_nearest fsW ["a", "b", "c", "d"] ".aptos").2.2
     ["a"] (by decide) (by decide),
   (find_config_dir_nearest fsW ["z"] ".aptos").2.1 (by decide)⟩

/-! ## Claim C9 -/

/-- Whenever task `j` is in range and appears in the completion schedule,
the collected result for index `j` is the balance of account `j` —
independent of where in the schedule it completed. -/
theorem runSchedule_lookup (bal : String → Int) (xs : List Account)
    (order : List Nat) (j : Nat) (hj : j < xs.length) (hmem : j ∈ order) :
    (runSchedule bal xs order).lookup j =
      some (bal (xs.getD j ⟨""⟩).address) := by
  induction order with
  | nil => simp at hmem
  | cons i rest ih =>
    unfold runSchedule
    rw [List.filterMap_cons]
    rcases hget : xs.get? i with _ | a
    · have hij : j ≠ i := by
        intro he
        have := List.get?_eq_none.mp hget
        omega
      simp only [hget, Option.map_none']
      rcases List.mem_cons.mp hmem with h1 | h2
      · exact absurd h1 hij
      · exact ih h2
    · simp only [hget, Option.map_some']
      by_cases hij : j = i
      · subst hij
        rw [List.lookup_cons_self]
        have : xs.getD j ⟨""⟩ = a := by
          rw [List.getD_eq_getElem?_getD, ← List.get?_eq_getElem?, hget]
          rfl
        rw [this]
      · rw [List.lookup_cons,
          show (j == i) = false from beq_eq_false_iff_ne.mpr hij]
        rcases List.mem_cons.mp hmem with h1 | h2
        · exact absurd h1 hij
        · exact ih h2

/-- A `mapM` whose function succeeds pointwise collects the pointwise
values. -/
theorem mapM_option_eq_map (l : List Nat) (fn : Nat → Option Int)
    (g : Nat → Int) (h : ∀ j ∈ l, fn j = some (g j)) :
    l.mapM fn = some (l.map g) := by
  induction l with
  | nil => rfl
  | cons a t ih =>
    rw [List.mapM_cons, h a (List.mem_cons_self a t),
      ih fun j hj => h j (List.mem_cons_of_mem a hj)]
    rfl

/-- Reading a list back by index recovers the list. -/
theorem range_map_getD (xs : List Account) (f : Account → Int)
    (d : Account) :
    (List.range xs.length).map (fun j => f (xs.getD j d)) = xs.map f := by
  induction xs with
  | nil => rfl
  | cons a t ih =>
    rw [List.length_cons, List.range_succ_eq_map, List.map_cons,
      List.getD_cons_zero, List.map_map]
    simp only [Function.comp_def, List.getD_cons_succ]
    rw [ih, List.map_cons]

/-- Zipping the account listing against its own mapped balances produces
rows positionally aligned with the listing. -/
theorem zip_map_balances (accounts : List (String × Account))
    (f : Account → Int) :
    (accounts.zip ((accounts.map Prod.snd).map f)).map
        (fun x => (x.1.1, x.1.2.address, x.2)) =
      accounts.map fun na => (na.1, na.2.address, f na.2) := by
  induction accounts with
  | nil => rfl
  | cons a t ih =>
    simp only [List.map_cons, List.zip_cons_cons]
    rw [ih]

/-- **C9**: for every completion schedule that completes each of the
fan-out tasks exactly once (any permutation of the task indices — any
completion order a bounded pool can produce), the rows of
`list_accounts` are positionally aligned with the account listing: row
`i` pairs account `i`'s name and address with account `i`'s balance. -/
theorem list_accounts_rows_aligned (bal : String → Int) (st : AppState)
    (order : List Nat)
    (hperm : order.Perm (List.range (loadAccounts st).length)) :
    listAccountsRows bal st order =
      some ((loadAccounts st).map fun na =>
        (na.1, na.2.address, bal na.2.address)) := by
  unfold listAccountsRows poolMapBalances
  dsimp only
  have hmapM :
      (List.range ((loadAccounts st).map Prod.snd).length).mapM
        (fun j =>
          (runSchedule bal ((loadAccounts st).map Prod.snd) order).lookup j)
      = some ((List.range ((loadAccounts st).map Prod.snd).length).map
          fun j =>
            (fun a => bal a.address)
              (((loadAccounts st).map Prod.snd).getD j ⟨""⟩)) := by
    apply mapM_option_eq_map
    intro j hj
    apply runSchedule_lookup
    · exact List.mem_range.mp hj
    · apply hperm.mem_iff.mpr
      rw [List.length_map] at hj
      exact hj
  rw [hmapM]
  simp only [Option.map_some']
  rw [range_map_getD ((loadAccounts st).map Prod.snd)
    (fun a => bal a.address) ⟨""⟩]
  rw [zip_map_balances (loadAccounts st) fun a => bal a.address]

/-- A reachable two-creation state for the C9 witness. -/
def stW : AppState :=
  (createAccount wOk (createAccount wOk st0 "a" 0).state "b" 0).state

/-- Witness for C9: with three accounts (`root`, `a`, `b`) and the
out-of-order completion schedule `[2, 0, 1]`, the rows still line up with
the listing order. -/
theorem list_accounts_rows_aligned_witness :
    listAccountsRows (fun a => (a.length : Int)) stW [2, 0, 1] =
      some ((loadAccounts stW).map fun na =>
        (na.1, na.2.address, (na.2.address.length : Int))) :=
  list_accounts_rows_aligned (fun a => (a.length : Int)) stW [2, 0, 1]
    (by decide)

/-! ## Claims C7 and C10: profile loading -/

/-- A failing config-field access is a `KeyError` or an attribute error —
never a `ProfileNotFound`. -/
theorem cfgStrField_error_shape (es : List (String × Yaml)) (k : String)
    (e : Err) (h : cfgStrField es k = .error e) :
    e = .keyError k ∨ e = .attributeError := by
  unfold cfgStrField at h
  split at h
  · injection h with h'
    exact Or.inl h'.symm
  · exact absurd h (by simp)
  · injection h with h'
    exact Or.inr h'.symm

/-- `AppObject.create` on a parsed document, written as one cascade over
the profile value. -/
theorem appCreate_parsed_profile (dir : List String) (doc : Yaml)
    (profile : String) :
    appCreate (some dir) (.parsed doc) profile =
      match profileRaw doc profile with
      | none => .error .profileNotFound
      | some .null => .error .profileNotFound
      | some (.dict []) => .error .profileNotFound
      | some (.dict (e :: es)) =>
        (match cfgStrField (e :: es) "rest_url" with
         | .error er => .error er
         | .ok ru =>
           match cfgStrField (e :: es) "faucet_url" with
           | .error er => .error er
           | .ok fu =>
             match cfgStrField (e :: es) "private_key" with
             | .error er => .error er
             | .ok pk =>
               .ok ⟨rstripSlashes ru, rstripSlashes fu, ⟨pk⟩, dir,
                 profile⟩)
      | some (.str _) =>
          .error (.assertFailed
            "Loaded aptos profile information but it wasn't an object/dictionary")
      | some (.num _) =>
          .error (.assertFailed
            "Loaded aptos profile information but it wasn't an object/dictionary") := by
  unfold appCreate getAptosProfileConfig
  rcases hp : profileRaw doc profile with _ | v
  · simp [hp]
  rcases v with _ | s | n | es
  · simp [hp]
  · simp [hp]
  · simp [hp]
  · rcases es with _ | ⟨e, es⟩
    · simp [hp]
    · simp [hp]

/-- When the profile is present as a non-empty mapping, the construction
result is never `ProfileNotFound` (it is a field error or success). -/
theorem appCreate_cons_ne_pnf (dir : List String) (doc : Yaml)
    (profile : String) (e : String × Yaml) (es : List (String × Yaml))
    (hp : profileRaw doc profile = some (.dict (e :: es))) :
    appCreate (some dir) (.parsed doc) profile ≠
      .error .profileNotFound := by
  rw [appCreate_parsed_profile, hp]
  rcases h1 : cfgStrField (e :: es) "rest_url" with er | ru
  · rcases cfgStrField_error_shape _ _ _ h1 with h | h <;> simp [h1, h]
  rcases h2 : cfgStrField (e :: es) "faucet_url" with er | fu
  · rcases cfgStrField_error_shape _ _ _ h2 with h | h <;>
      simp [h1, h2, h]
  rcases h3 : cfgStrField (e :: es) "private_key" with er | pk
  · rcases cfgStrField_error_shape _ _ _ h3 with h | h <;>
      simp [h1, h2, h3, h]
  simp [h1, h2, h3]

/-- `ProfileNotFound` on a parsed document happens exactly for a falsy
profile value. -/
theorem appCreate_pnf_iff (dir : List String) (doc : Yaml)
    (profile : String) :
    appCreate (some dir) (.parsed doc) profile = .error .profileNotFound ↔
      profileAbsentOrEmpty doc profile = true := by
  unfold profileAbsentOrEmpty
  rcases hp : profileRaw doc profile with _ | v
  · rw [appCreate_parsed_profile, hp]
    simp
  rcases v with _ | s | n | es
  · rw [appCreate_parsed_profile, hp]
    simp
  · rw [appCreate_parsed_profile, hp]
    simp
  · rw [appCreate_parsed_profile, hp]
    simp
  · rcases es with _ | ⟨e, es⟩
    · rw [appCreate_parsed_profile, hp]
      simp
    · simp only [hp]
      constructor
      · intro h
        exact absurd h (appCreate_cons_ne_pnf dir doc profile e es hp)
      · intro h
        exact absurd h (by simp)

/-- **C7**: construction fails with `ProfileNotFound` exactly when the
document parsed and the profile key is absent or present but empty/null;
a missing document and an unparseable document fail with their own
distinct errors (the spec's `SettingsUnreadable` class) instead; and on
success the rest and faucet URLs are normalized by stripping trailing
path separators. -/
theorem profile_error_classification (dir : List String) (d : DocRead)
    (profile : String) :
    (appCreate (some dir) d profile = .error .profileNotFound ↔
      ∃ doc, d = .parsed doc ∧ profileAbsentOrEmpty doc profile = true)
  ∧ (d = .missing →
      appCreate (some dir) d profile = .error .fileNotFoundError)
  ∧ (d = .unparseable →
      appCreate (some dir) d profile = .error .yamlError)
  ∧ (∀ doc es ru fu pk, d = .parsed doc →
      profileRaw doc profile = some (.dict es) →
      es.lookup "rest_url" = some (.str ru) →
      es.lookup "faucet_url" = some (.str fu) →
      es.lookup "private_key" = some (.str pk) →
      appCreate (some dir) d profile =
        .ok ⟨rstripSlashes ru, rstripSlashes fu, ⟨pk⟩, dir, profile⟩) := by
  refine ⟨?_, ?_, ?_, ?_⟩
  · cases d with
    | missing =>
      constructor
      · intro h
        exact absurd h (by simp [appCreate, getAptosProfileConfig])
      · rintro ⟨doc, hde, -⟩
        exact absurd hde (by simp)
    | unparseable =>
      constructor
      · intro h
        exact absurd h (by simp [appCreate, getAptosProfileConfig])
      · rintro ⟨doc, hde, -⟩
        exact absurd hde (by simp)
    | parsed doc =>
      rw [appCreate_pnf_iff]
      constructor
      · intro h
        exact ⟨doc, rfl, h⟩
      · rintro ⟨doc', hde, hpe⟩
        injection hde with hde'
        exact hde' ▸ hpe
  · rintro rfl
    rfl
  · rintro rfl
    rfl
  · intro doc es ru fu pk hde h1 h2 h3 h4
    subst hde
    rcases es with _ | ⟨e0, es0⟩
    · exact absurd h2 (by simp)
    rw [appCreate_parsed_profile, h1]
    simp [cfgStrField, h2, h3, h4]

/-- Witness for C7: the sample document succeeds with both URLs stripped
of trailing slashes; an unknown profile, a missing document and an
unparseable document each fail with their distinct error. -/
theorem profile_error_classification_witness :
    appCreate (some ["x", ".aptos"]) (.parsed docW) "default" =
      .ok ⟨"http://node", "http://faucet", ⟨"abc"⟩, ["x", ".aptos"],
        "default"⟩ ∧
    appCreate (some ["x", ".aptos"]) (.parsed docW) "other" =
      .error .profileNotFound ∧
    appCreate (some ["x", ".aptos"]) .missing "default" =
      .error .fileNotFoundError ∧
    appCreate (some ["x", ".aptos"]) .unparseable "default" =
      .error .yamlError :=
  ⟨(profile_error_classification ["x", ".aptos"] (.parsed docW)
      "default").2.2.2 docW esW "http://node//" "http://faucet/" "abc"
      rfl rfl rfl rfl rfl,
   (profile_error_classification ["x", ".aptos"] (.parsed docW)
      "other").1.mpr ⟨docW, rfl, rfl⟩,
   (profile_error_classification ["x", ".aptos"] .missing "default").2.1
      rfl,
   (profile_error_classification ["x", ".aptos"] .unparseable
      "default").2.2.1 rfl⟩

/-- **C10**: when the requested profile is present as a non-empty
mapping, construction never fails with `ProfileNotFound`; a missing
`rest_url`, `faucet_url` or `private_key` field surfaces as the
unclassified `KeyError` for that field (in access order); and
empty-string URL and key values are accepted without validation. -/
theorem nonempty_profile_field_errors (dir : List String)
    (profile : String) :
    (∀ doc e es, profileRaw doc profile = some (.dict (e :: es)) →
      appCreate (some dir) (.parsed doc) profile ≠
        .error .profileNotFound)
  ∧ (∀ doc e es, profileRaw doc profile = some (.dict (e :: es)) →
      (e :: es).lookup "rest_url" = none →
      appCreate (some dir) (.parsed doc) profile =
        .error (.keyError "rest_url"))
  ∧ (∀ doc e es ru, profileRaw doc profile = some (.dict (e :: es)) →
      (e :: es).lookup "rest_url" = some (.str ru) →
      (e :: es).lookup "faucet_url" = none →
      appCreate (some dir) (.parsed doc) profile =
        .error (.keyError "faucet_url"))
  ∧ (∀ doc e es ru fu, profileRaw doc profile = some (.dict (e :: es)) →
      (e :: es).lookup "rest_url" = some (.str ru) →
      (e :: es).lookup "faucet_url" = some (.str fu) →
      (e :: es).lookup "private_key" = none →
      appCreate (some dir) (.parsed doc) profile =
        .error (.keyError "private_key"))
  ∧ (∀ doc e es, profileRaw doc profile = some (.dict (e :: es)) →
      (e :: es).lookup "rest_url" = some (.str "") →
      (e :: es).lookup "faucet_url" = some (.str "") →
      (e :: es).lookup "private_key" = some (.str "") →
      appCreate (some dir) (.parsed doc) profile =
        .ok ⟨"", "", ⟨""⟩, dir, profile⟩) := by
  refine ⟨?_, ?_, ?_, ?_, ?_⟩
  · intro doc e es hp
    exact appCreate_cons_ne_pnf dir doc profile e es hp
  · intro doc e es hp h1
    rw [appCreate_parsed_profile, hp]
    simp [cfgStrField, h1]
  · intro doc e es ru hp h1 h2
    rw [appCreate_parsed_profile, hp]
    simp [cfgStrField, h1, h2]
  · intro doc e es ru fu hp h1 h2 h3
    rw [appCreate_parsed_profile, hp]
    simp [cfgStrField, h1, h2, h3]
  · intro doc e es hp h1 h2 h3
    rw [appCreate_parsed_profile, hp]
    simp [cfgStrField, h1, h2, h3, rstripSlashes]

/-- A profile missing `rest_url`. -/
def docMissingRest : Yaml :=
  .dict [("profiles", .dict [("default",
    .dict [("faucet_url", .str "f")])])]

/-- A profile missing `faucet_url`. -/
def docMissingFaucet : Yaml :=
  .dict [("profiles", .dict [("default",
    .dict [("rest_url", .str "r")])])]

/-- A profile missing `private_key`. -/
def docMissingKey : Yaml :=
  .dict [("profiles", .dict [("default",
    .dict [("rest_url", .str "r"), ("faucet_url", .str "f")])])]

/-- A profile whose three fields are all empty strings. -/
def docEmptyFields : Yaml :=
  .dict [("profiles", .dict [("default",
    .dict [("rest_url", .str ""), ("faucet_url", .str ""),
      ("private_key", .str "")])])]

/-- Witness for C10: each field-error case and the empty-string success
case at concrete documents. -/
theorem nonempty_profile_field_errors_witness :
    appCreate (some ["x", ".aptos"]) (.parsed docMissingRest) "default" ≠
      .error .profileNotFound ∧
    appCreate (some ["x", ".aptos"]) (.parsed docMissingRest) "default" =
      .error (.keyError "rest_url") ∧
    appCreate (some ["x", ".aptos"]) (.parsed docMissingFaucet)
      "default" = .error (.keyError "faucet_url") ∧
    appCreate (some ["x", ".aptos"]) (.parsed docMissingKey) "default" =
      .error (.keyError "private_key") ∧
    appCreate (some ["x", ".aptos"]) (.parsed docEmptyFields) "default" =
      .ok ⟨"", "", ⟨""⟩, ["x", ".aptos"], "default"⟩ :=
  ⟨(nonempty_profile_field_errors ["x", ".aptos"] "default").1
      docMissingRest ("faucet_url", .str "f") [] rfl,
   (nonempty_profile_field_errors ["x", ".aptos"] "default").2.1
      docMissingRest ("faucet_url", .str "f") [] rfl rfl,
   (nonempty_profile_field_errors ["x", ".aptos"] "default").2.2.1
      docMissingFaucet ("rest_url", .str "r") [] "r" rfl rfl rfl,
   (nonempty_profile_field_errors ["x", ".aptos"] "default").2.2.2.1
      docMissingKey ("rest_url", .str "r") [("faucet_url", .str "f")]
      "r" "f" rfl rfl rfl rfl,
   (nonempty_profile_field_errors ["x", ".aptos"] "default").2.2.2.2
      docEmptyFields ("rest_url", .str "") [("faucet_url", .str ""),
        ("private_key", .str "")] rfl rfl rfl rfl⟩

end Moocoin
